import Mathlib

/-!
Shallow embedding of the hierarchical access-resolution core of the
ekko repository (NestJS/TypeORM), covering:

* `src/src/structures/structures.service.ts` (StructuresService)
* `src/src/users/users.service.ts` (UsersService)
* the `Structure`, `User` and `Permission` entities.

Stateful service methods become explicit state passing over `St`
(structure rows, user rows, permission rows, the cache-manager map);
thrown NestJS exceptions become `Except Err`.  The TypeORM
`TreeRepository` calls (`findDescendants`, `findAncestors` on a
closure-table tree) are embedded as fueled traversals of the
`parentId` adjacency; TypeORM returns the given entity itself
together with its transitive descendants (resp. ancestors).
-/

namespace Ekko

/-- Row of the `structures` table (`structure.entity` in
`structures.module.ts`): id, name, level, nullable parentId. -/
structure Structure where
  id : String
  name : String
  level : String
  parentId : Option String
deriving DecidableEq, Repr

/-- Row of the `users` table (`user.entity.ts`), restricted to the fields
the embedded services read: id, email, nullable structureId. -/
structure User where
  id : String
  email : String
  structureId : Option String
deriving DecidableEq, Repr

/-- Row of the `permissions` table (`permission.entity.ts`):
id, userId, structureId. -/
structure Permission where
  id : String
  userId : String
  structureId : String
deriving DecidableEq, Repr

/-- Values the services store in the cache manager: a single structure
(`structure_<id>` keys) or a list of structures (descendants, ancestors
and user-accessible keys). -/
inductive CacheVal where
  | struct : Structure → CacheVal
  | structs : List Structure → CacheVal
deriving DecidableEq, Repr

/-- The cache manager: an association list keyed by the literal key
strings the services build. -/
abbrev Cache := List (String × CacheVal)

/-- `cacheManager.get(key)`. -/
def cacheGet (c : Cache) (k : String) : Option CacheVal :=
  (c.find? (fun e => e.1 = k)).map (fun e => e.2)

/-- `cacheManager.set(key, v)`: the key now maps to `v`. -/
def cacheSet (c : Cache) (k : String) (v : CacheVal) : Cache :=
  (k, v) :: c.filter (fun e => ¬ (e.1 = k))

/-- `cacheManager.del(key)`. -/
def cacheDel (c : Cache) (k : String) : Cache :=
  c.filter (fun e => ¬ (e.1 = k))

/-- The structures table. -/
abbrev Store := List Structure

/-- `repository.findOne({ where: { id } })`: first row with this id. -/
def lookupStruct (rows : Store) (id : String) : Option Structure :=
  rows.find? (fun r => r.id = id)

/-- Rows whose `parentId` is this id: the children relation the
closure table is maintained from. -/
def childRows (rows : Store) (id : String) : List Structure :=
  rows.filter (fun r => r.parentId = some id)

/-- TypeORM closure-table `findDescendants(entity)`: the entity itself
together with all rows reachable by following child links, as a fueled
depth-first traversal of the `parentId` adjacency. -/
def descRows (rows : Store) : Nat → Structure → List Structure
  | 0, s => [s]
  | Nat.succ fuel, s =>
    s :: ((childRows rows s.id).map (fun c => descRows rows fuel c)).flatten

/-- TypeORM closure-table `findAncestors(entity)`: the entity itself
followed by the chain of parent rows up to the root (or up to a
parent reference that resolves to no row). -/
def ancRowsFrom (rows : Store) : Nat → Structure → List Structure
  | 0, s => [s]
  | Nat.succ fuel, s =>
    s ::
      (match s.parentId with
        | none => []
        | some p =>
          match lookupStruct rows p with
          | none => []
          | some q => ancRowsFrom rows fuel q)

/-- One step up the tree on ids: the parentId of the row with this id. -/
def pstep (rows : Store) (c : String) : Option String :=
  (lookupStruct rows c).bind (fun r => r.parentId)

/-- The chain of strict-ancestor ids of `c`, bounded by fuel. -/
def chainIds (rows : Store) : Nat → String → List String
  | 0, _ => []
  | Nat.succ fuel, c =>
    match pstep rows c with
    | none => []
    | some p => p :: chainIds rows fuel p

/-- Length of the strict-ancestor chain computed with fuel `rows.length`. -/
def chainLen (rows : Store) (c : String) : Nat :=
  (chainIds rows rows.length c).length

/-- A well-formed structures table: row ids are distinct and every
parent edge strictly decreases the ancestor-chain length, which rules
out cycles in the parent relation. -/
def WellFormed (rows : Store) : Prop :=
  (rows.map (fun r => r.id)).Nodup ∧
    ∀ r ∈ rows, ∀ p, r.parentId = some p → chainLen rows p < chainLen rows r.id

instance (rows : Store) : Decidable (WellFormed rows) := by
  unfold WellFormed
  infer_instance

/-- `b` lies in the subtree of `a` (descendant-or-self): following
parent links from `b` reaches `a`. -/
inductive Reaches (rows : Store) : String → String → Prop
  | refl (a : String) : Reaches rows a a
  | step {a b c : String} {r : Structure} :
      lookupStruct rows c = some r → r.parentId = some b →
      Reaches rows a b → Reaches rows a c

/-- Errors thrown by the embedded services (the NestJS exceptions that
appear in the sources). -/
inductive Err where
  | notFound (msg : String)
  | forbidden (msg : String)
  | conflict (msg : String)
deriving DecidableEq, Repr

/-- Full service state: the three tables plus the shared cache manager. -/
structure St where
  structures : Store
  users : List User
  permissions : List Permission
  cache : Cache
deriving DecidableEq

namespace StructuresService

/-- `StructuresService.findOne(id)`: cached single-structure lookup;
throws NotFoundException when the id resolves to no row. -/
def findOne (st : St) (id : String) : Except Err (Structure × St) :=
  match cacheGet st.cache ("structure_" ++ id) with
  | some (CacheVal.struct s) => Except.ok (s, st)
  | _ =>
    match lookupStruct st.structures id with
    | none =>
      Except.error (Err.notFound ("Structure with ID " ++ id ++ " not found"))
    | some s =>
      Except.ok
        (s, { st with cache := cacheSet st.cache ("structure_" ++ id) (CacheVal.struct s) })

/-- `StructuresService.findDescendants(id)`: cached; on a miss resolves
the structure via `findOne` and runs the tree-repository descendant
query. -/
def findDescendants (st : St) (id : String) : Except Err (List Structure × St) :=
  match cacheGet st.cache ("structure_descendants_" ++ id) with
  | some (CacheVal.structs l) => Except.ok (l, st)
  | _ =>
    match findOne st id with
    | Except.error e => Except.error e
    | Except.ok (s, st1) =>
      let ds := descRows st1.structures st1.structures.length s
      Except.ok
        (ds,
          { st1 with
            cache := cacheSet st1.cache ("structure_descendants_" ++ id) (CacheVal.structs ds) })

/-- `StructuresService.findAncestors(id)`: cached; on a miss resolves
the structure via `findOne` and runs the tree-repository ancestor
query. -/
def findAncestors (st : St) (id : String) : Except Err (List Structure × St) :=
  match cacheGet st.cache ("structure_ancestors_" ++ id) with
  | some (CacheVal.structs l) => Except.ok (l, st)
  | _ =>
    match findOne st id with
    | Except.error e => Except.error e
    | Except.ok (s, st1) =>
      let as := ancRowsFrom st1.structures st1.structures.length s
      Except.ok
        (as,
          { st1 with
            cache := cacheSet st1.cache ("structure_ancestors_" ++ id) (CacheVal.structs as) })

/-- Cache key of `StructuresService.findUserAccessibleStructures`:
the literal template string of the source. -/
def accKey (userId userStructureId : String) : String :=
  "user_accessible_structures_" ++ userId ++ "_" ++ userStructureId

/-- `StructuresService.findUserAccessibleStructures(userId, userStructureId)`:
cached under `accKey`; on a miss resolves the home structure via
`findOne` and returns its tree-repository descendants.  The
`permissions` table is never consulted. -/
def findUserAccessibleStructures (st : St) (userId userStructureId : String) :
    Except Err (List Structure × St) :=
  match cacheGet st.cache (accKey userId userStructureId) with
  | some (CacheVal.structs l) => Except.ok (l, st)
  | _ =>
    match findOne st userStructureId with
    | Except.error e => Except.error e
    | Except.ok (s, st1) =>
      let ds := descRows st1.structures st1.structures.length s
      Except.ok
        (ds,
          { st1 with
            cache := cacheSet st1.cache (accKey userId userStructureId) (CacheVal.structs ds) })

/-- `StructuresService.clearStructureCache()`: deletes only the
`all_structures` entry. -/
def clearStructureCache (st : St) : St :=
  { st with cache := cacheDel st.cache "all_structures" }

/-- Fields of a `Partial<Structure>` update DTO; `some` means the field
is present and `Object.assign` overwrites it. -/
structure StructureDto where
  name : Option String := none
  level : Option String := none
  parentId : Option (Option String) := none
deriving DecidableEq, Repr

/-- `Object.assign(structure, updateStructureDto)`. -/
def applyDto (s : Structure) (d : StructureDto) : Structure :=
  { s with
    name := d.name.getD s.name
    level := d.level.getD s.level
    parentId := d.parentId.getD s.parentId }

/-- `repository.save` of an existing row: replace the row with the same
primary key. -/
def saveRow (rows : Store) (s : Structure) : Store :=
  rows.map (fun r => if r.id = s.id then s else r)

/-- `StructuresService.create(dto)`: saves the new row and clears the
structure cache.  No validation of the parent reference is performed. -/
def create (st : St) (s : Structure) : Except Err (Structure × St) :=
  Except.ok (s, clearStructureCache { st with structures := st.structures ++ [s] })

/-- `StructuresService.update(id, dto)`: resolves the structure via
`findOne`, `Object.assign`s the DTO onto it, saves, clears the
structure cache.  No self-parent or cycle validation is performed. -/
def update (st : St) (id : String) (dto : StructureDto) : Except Err (Structure × St) :=
  match findOne st id with
  | Except.error e => Except.error e
  | Except.ok (s, st1) =>
    let s1 := applyDto s dto
    Except.ok (s1, clearStructureCache { st1 with structures := saveRow st1.structures s1 })

/-- `StructuresService.remove(id)`: resolves the structure via
`findOne`, removes the row, clears the structure cache.  No check for
children is performed. -/
def remove (st : St) (id : String) : Except Err (Unit × St) :=
  match findOne st id with
  | Except.error e => Except.error e
  | Except.ok (s, st1) =>
    Except.ok
      ((),
        clearStructureCache
          { st1 with structures := st1.structures.filter (fun r => ¬ (r.id = s.id)) })

end StructuresService

/-- `usersRepository.findOne({ where: { id } })`. -/
def lookupUser (us : List User) (id : String) : Option User :=
  us.find? (fun u => u.id = id)

namespace UsersService

/-- `UsersService.findOne(id)`: uncached repository lookup; throws
NotFoundException when the id resolves to no row. -/
def findOne (st : St) (id : String) : Except Err (User × St) :=
  match lookupUser st.users id with
  | none => Except.error (Err.notFound ("User with ID " ++ id ++ " not found"))
  | some u => Except.ok (u, st)

/-- `UsersService.findAll(currentUserId)`: throws ForbiddenException
when the current user has no structureId; otherwise filters the users
table by membership of `structureId` in the accessible structure ids. -/
def findAll (st : St) (currentUserId : String) : Except Err (List User × St) :=
  match findOne st currentUserId with
  | Except.error e => Except.error e
  | Except.ok (u, st1) =>
    match u.structureId with
    | none => Except.error (Err.forbidden "User has no assigned structure")
    | some sid =>
      match StructuresService.findUserAccessibleStructures st1 currentUserId sid with
      | Except.error e => Except.error e
      | Except.ok (accessible, st2) =>
        let ids := accessible.map (fun s => s.id)
        Except.ok
          (st2.users.filter
            (fun v =>
              match v.structureId with
              | some t => ids.contains t
              | none => false),
            st2)

/-- `UsersService.canAccessUser(currentUserId, targetUserId)`: loads
both users, returns false when either structureId is null, otherwise
tests membership of the target structureId in the accessible set of
the current user.  There is no self-access short-circuit. -/
def canAccessUser (st : St) (currentUserId targetUserId : String) :
    Except Err (Bool × St) :=
  match findOne st currentUserId with
  | Except.error e => Except.error e
  | Except.ok (cu, st1) =>
    match findOne st1 targetUserId with
    | Except.error e => Except.error e
    | Except.ok (tu, st2) =>
      match cu.structureId, tu.structureId with
      | some csid, some tsid =>
        match StructuresService.findUserAccessibleStructures st2 currentUserId csid with
        | Except.error e => Except.error e
        | Except.ok (accessible, st3) =>
          Except.ok (accessible.any (fun s => s.id = tsid), st3)
      | _, _ => Except.ok (false, st2)

end UsersService

/-! Concrete rows and states used by counterexamples and witnesses
(the Root, City, Suburb tree of the testable-properties scenarios). -/

/-- Root structure row. -/
def rowR : Structure := ⟨"R", "Root", "0", none⟩

/-- City structure row, child of the root. -/
def rowC : Structure := ⟨"C", "City", "1", some "R"⟩

/-- Suburb structure row, child of the city. -/
def rowS : Structure := ⟨"S", "Suburb", "2", some "C"⟩

/-- A user with no home structure. -/
def userNull : User := ⟨"u1", "u1@example.com", none⟩

/-- User V homed at the suburb. -/
def userV : User := ⟨"V", "v@example.com", some "S"⟩

/-- A permission granting V the city structure. -/
def permVC : Permission := ⟨"p1", "V", "C"⟩

/-- State for the self-access counterexample: one user without a home
structure. -/
def stNullUser : St := ⟨[], [userNull], [], []⟩

/-- State for the permission-grant counterexample: the three-node tree,
V homed at S, an explicit grant for V on C, empty cache. -/
def stGrant : St := ⟨[rowR, rowC, rowS], [userV], [permVC], []⟩

/-- A user homed at the root, for witnesses. -/
def userW : User := ⟨"w", "w@example.com", some "R"⟩

/-- Witness state: the three-node tree and a user homed at the root. -/
def stW : St := ⟨[rowR, rowC, rowS], [userW, userV], [], []⟩

/-- State after findDescendants(R) on `stW`: result and structure row
cached. -/
def stWDescR : St :=
  ⟨[rowR, rowC, rowS], [userW, userV], [],
    [("structure_descendants_R", CacheVal.structs [rowR, rowC, rowS]),
      ("structure_R", CacheVal.struct rowR)]⟩

/-- State after findAncestors(S) on `stW`: result and structure row
cached. -/
def stWAncS : St :=
  ⟨[rowR, rowC, rowS], [userW, userV], [],
    [("structure_ancestors_S", CacheVal.structs [rowS, rowC, rowR]),
      ("structure_S", CacheVal.struct rowS)]⟩

/-- State for the delete-with-children counterexample: city with a
suburb child (the city row keeps its dangling root reference, which no
operation consults). -/
def stCS : St := ⟨[rowC, rowS], [], [], []⟩

/-- The state remove produces from `stCS`: the suburb is orphaned, the
city row is gone, and the structure cache still holds the city entry
that findOne populated. -/
def stCSAfter : St := ⟨[rowS], [], [], [("structure_C", CacheVal.struct rowC)]⟩

/-- Root node A for the cycle counterexample. -/
def rowA : Structure := ⟨"A", "NodeA", "0", none⟩

/-- Node B, child of A. -/
def rowB : Structure := ⟨"B", "NodeB", "1", some "A"⟩

/-- State for the cycle counterexample: B under A, empty cache. -/
def stAB : St := ⟨[rowA, rowB], [], [], []⟩

/-- Update DTO reassigning the parent to B. -/
def dtoMoveToB : StructuresService.StructureDto := { parentId := some (some "B") }

/-- Row A after the move: its parent is now its own descendant B. -/
def rowA2 : Structure := ⟨"A", "NodeA", "0", some "B"⟩

/-- The state update produces from `stAB`: the parent relation now has
the two-cycle A to B to A. -/
def stABCycle : St := ⟨[rowA2, rowB], [], [], [("structure_A", CacheVal.struct rowA)]⟩

/-- Initial state of the stale-cache counterexample: just the root. -/
def stR0 : St := ⟨[rowR], [], [], []⟩

/-- After findDescendants(R) on `stR0`: the descendant result and the
structure row are cached. -/
def stR1 : St :=
  ⟨[rowR], [], [],
    [("structure_descendants_R", CacheVal.structs [rowR]), ("structure_R", CacheVal.struct rowR)]⟩

/-- After create(C under R) on `stR1`: the store has grown but the
pre-mutation descendant cache entry survived the invalidation. -/
def stRC : St :=
  ⟨[rowR, rowC], [], [],
    [("structure_descendants_R", CacheVal.structs [rowR]), ("structure_R", CacheVal.struct rowR)]⟩

/-- A second user homed at the root, for the requester-independence
witness. -/
def userW2 : User := ⟨"w2", "w2@example.com", some "R"⟩

/-- State with two users homed at the same structure. -/
def stTwo : St := ⟨[rowR, rowC, rowS], [userW, userW2, userV], [], []⟩

/-- State for the home-change witness: the cache still holds the
accessible set V computed while homed at R, but V is now homed at S. -/
def stHomeChanged : St :=
  ⟨[rowR, rowC, rowS], [userV], [],
    cacheSet [] (StructuresService.accKey "V" "R") (CacheVal.structs [rowR, rowC, rowS])⟩

/-! Helper lemmas about the cache and the traversals. -/

theorem cacheGet_nil (k : String) : cacheGet [] k = none := rfl

theorem find?_filter_of_imp {α : Type} (l : List α) (p q : α → Bool)
    (h : ∀ e, p e = true → q e = true) :
    List.find? p (l.filter q) = List.find? p l := by
  induction l with
  | nil => rfl
  | cons e t ih =>
    by_cases hq : q e = true
    · by_cases hp : p e = true
      · simp [List.filter, List.find?, hq, hp]
      · simp only [List.filter, hq, List.find?, hp]
        simpa [Bool.not_eq_true] using ih
    · have hp : ¬ (p e = true) := fun hc => hq (h e hc)
      simp only [List.filter, Bool.not_eq_true] at hq
      simp only [List.filter, hq, List.find?]
      simpa [hp, Bool.not_eq_true] using ih

theorem cacheGet_del_ne (c : Cache) (k k1 : String) (h : ¬ (k1 = k)) :
    cacheGet (cacheDel c k1) k = cacheGet c k := by
  unfold cacheGet cacheDel
  rw [find?_filter_of_imp]
  intro e he
  simp only [decide_eq_true_eq] at he ⊢
  intro hcon
  exact h (hcon ▸ he ▸ rfl)

theorem cacheGet_set_ne (c : Cache) (k k1 : String) (v : CacheVal) (h : ¬ (k1 = k)) :
    cacheGet (cacheSet c k1 v) k = cacheGet c k := by
  unfold cacheGet cacheSet
  rw [List.find?]
  have hk : (decide ((k1, v).1 = k)) = false := by
    simp [h]
  rw [hk]
  rw [find?_filter_of_imp]
  intro e he
  simp only [decide_eq_true_eq] at he ⊢
  intro hcon
  exact h (hcon ▸ he ▸ rfl)

theorem lookupStruct_id (rows : Store) (id : String) (s : Structure)
    (h : lookupStruct rows id = some s) : s.id = id ∧ s ∈ rows := by
  unfold lookupStruct at h
  refine ⟨?_, List.mem_of_find?_eq_some h⟩
  have := List.find?_some h
  simpa using this

theorem lookupUser_id (us : List User) (id : String) (u : User)
    (h : lookupUser us id = some u) : u.id = id ∧ u ∈ us := by
  unfold lookupUser at h
  refine ⟨?_, List.mem_of_find?_eq_some h⟩
  have := List.find?_some h
  simpa using this

theorem descRows_eq_cons (rows : Store) (f : Nat) (s : Structure) :
    ∃ t, descRows rows f s = s :: t := by
  cases f with
  | zero => exact ⟨[], rfl⟩
  | succ n => exact ⟨_, rfl⟩

theorem descRows_any_self (rows : Store) (f : Nat) (s : Structure) :
    (descRows rows f s).any (fun x => x.id = s.id) = true := by
  obtain ⟨t, ht⟩ := descRows_eq_cons rows f s
  rw [ht]
  simp

theorem pstep_some (rows : Store) (c p : String) (h : pstep rows c = some p) :
    ∃ r, lookupStruct rows c = some r ∧ r.parentId = some p := by
  unfold pstep at h
  cases hl : lookupStruct rows c with
  | none => rw [hl] at h; cases h
  | some r => rw [hl] at h; exact ⟨r, rfl, h⟩

theorem chainIds_succ_some (rows : Store) (f : Nat) (c p : String)
    (hp : pstep rows c = some p) :
    chainIds rows (f + 1) c = p :: chainIds rows f p := by
  rw [chainIds, hp]

theorem chainIds_succ_none (rows : Store) (f : Nat) (c : String)
    (hp : pstep rows c = none) :
    chainIds rows (f + 1) c = [] := by
  rw [chainIds, hp]

theorem chainIds_length_le (rows : Store) :
    ∀ (f : Nat) (c : String), (chainIds rows f c).length ≤ f := by
  intro f
  induction f with
  | zero => intro c; simp [chainIds]
  | succ n ih =>
    intro c
    cases hp : pstep rows c with
    | none => rw [chainIds_succ_none rows n c hp]; simp
    | some p =>
      rw [chainIds_succ_some rows n c p hp]
      simpa using ih p

theorem chainIds_stabilize (rows : Store) :
    ∀ (f : Nat) (c : String), (chainIds rows (f + 1) c).length ≤ f →
      chainIds rows (f + 1) c = chainIds rows f c := by
  intro f
  induction f with
  | zero =>
    intro c h
    cases hp : pstep rows c with
    | none => rw [chainIds_succ_none rows 0 c hp]; rfl
    | some p =>
      rw [chainIds_succ_some rows 0 c p hp] at h
      simp at h
  | succ n ih =>
    intro c h
    cases hp : pstep rows c with
    | none =>
      rw [chainIds_succ_none rows (n + 1) c hp, chainIds_succ_none rows n c hp]
    | some p =>
      rw [chainIds_succ_some rows (n + 1) c p hp] at h
      rw [chainIds_succ_some rows (n + 1) c p hp, chainIds_succ_some rows n c p hp]
      have hlen : (chainIds rows (n + 1) p).length ≤ n := by
        simpa using h
      rw [ih p hlen]

theorem chainIds_of_lookup_none (rows : Store) (p : String)
    (h : lookupStruct rows p = none) : ∀ f, chainIds rows f p = [] := by
  intro f
  cases f with
  | zero => rfl
  | succ n =>
    have hp : pstep rows p = none := by unfold pstep; rw [h]; rfl
    exact chainIds_succ_none rows n p hp

theorem reaches_of_mem_chainIds (rows : Store) :
    ∀ (f : Nat) (b a : String), a ∈ chainIds rows f b → Reaches rows a b := by
  intro f
  induction f with
  | zero => intro b a h; simp [chainIds] at h
  | succ n ih =>
    intro b a h
    cases hp : pstep rows b with
    | none => rw [chainIds_succ_none rows n b hp] at h; cases h
    | some p =>
      rw [chainIds_succ_some rows n b p hp] at h
      obtain ⟨r, hr, hpar⟩ := pstep_some rows b p hp
      rcases List.mem_cons.mp h with he | ht
      · subst he
        exact Reaches.step hr hpar (Reaches.refl a)
      · exact Reaches.step hr hpar (ih p a ht)

theorem reaches_trans (rows : Store) {a b c : String}
    (h1 : Reaches rows a b) (h2 : Reaches rows b c) : Reaches rows a c := by
  induction h2 with
  | refl => exact h1
  | step hr hpar _ ih => exact Reaches.step hr hpar ih

theorem lookupStruct_of_mem (rows : Store)
    (hnd : (rows.map (fun r => r.id)).Nodup) (s : Structure) (hs : s ∈ rows) :
    lookupStruct rows s.id = some s := by
  induction rows with
  | nil => cases hs
  | cons e t ih =>
    rw [List.map_cons, List.nodup_cons] at hnd
    rcases List.mem_cons.mp hs with he | ht
    · subst he
      unfold lookupStruct
      simp [List.find?]
    · have hne : ¬ (e.id = s.id) := by
        intro h
        exact hnd.1 (h ▸ List.mem_map_of_mem (fun r => r.id) ht)
      unfold lookupStruct at ih ⊢
      rw [List.find?]
      have hdec : (decide (e.id = s.id)) = false := by simpa using hne
      rw [hdec]
      exact ih hnd.2 ht

theorem mem_chainIds_of_reaches (rows : Store) (hwf : WellFormed rows) :
    ∀ (a b : String), Reaches rows a b →
      a = b ∨ a ∈ chainIds rows rows.length b := by
  intro a b h
  induction h with
  | refl => exact Or.inl rfl
  | step hr hpar hab ih =>
    right
    rename_i b2 c2 r
    have hrmem := List.mem_of_find?_eq_some hr
    have hrid : r.id = c2 := by simpa using List.find?_some hr
    have hps : pstep rows c2 = some b2 := by
      unfold pstep
      rw [hr]
      exact hpar
    cases hlen : rows.length with
    | zero =>
      rw [List.length_eq_zero] at hlen
      subst hlen
      cases hrmem
    | succ n =>
      rw [chainIds_succ_some rows n c2 b2 hps]
      have hlt := hwf.2 r hrmem b2 hpar
      unfold chainLen at hlt
      have hleN := chainIds_length_le rows rows.length r.id
      have hb2 : (chainIds rows rows.length b2).length ≤ n := by
        omega
      rw [hlen] at hb2
      have hstab : chainIds rows (n + 1) b2 = chainIds rows n b2 :=
        chainIds_stabilize rows n b2 hb2
      rcases ih with he | hm
      · subst he
        exact List.mem_cons_self _ _
      · apply List.mem_cons_of_mem
        rw [hlen] at hm
        rw [hstab] at hm
        exact hm

theorem mem_childRows (rows : Store) (id : String) (c : Structure) :
    c ∈ childRows rows id ↔ c ∈ rows ∧ c.parentId = some id := by
  unfold childRows
  simp [List.mem_filter]

theorem descRows_succ (rows : Store) (f : Nat) (s : Structure) :
    descRows rows (f + 1) s
      = s :: ((childRows rows s.id).map (fun c => descRows rows f c)).flatten := rfl

theorem mem_descRows_succ (rows : Store) (f : Nat) (s x : Structure) :
    x ∈ descRows rows (f + 1) s ↔
      x = s ∨ ∃ c, c ∈ childRows rows s.id ∧ x ∈ descRows rows f c := by
  rw [descRows_succ]
  simp

theorem self_mem_descRows (rows : Store) (f : Nat) (s : Structure) :
    s ∈ descRows rows f s := by
  obtain ⟨t, ht⟩ := descRows_eq_cons rows f s
  rw [ht]
  exact List.mem_cons_self _ _

theorem descRows_child_ext (rows : Store) :
    ∀ (f : Nat) (s q c : Structure), q ∈ descRows rows f s →
      c ∈ childRows rows q.id → c ∈ descRows rows (f + 1) s := by
  intro f
  induction f with
  | zero =>
    intro s q c hq hc
    have hq2 : q = s := by simpa [descRows] using hq
    rw [hq2] at hc
    exact (mem_descRows_succ rows 0 s c).mpr
      (Or.inr ⟨c, hc, self_mem_descRows rows 0 c⟩)
  | succ n ih =>
    intro s q c hq hc
    rcases (mem_descRows_succ rows n s q).mp hq with he | ⟨d, hd, hqd⟩
    · rw [he] at hc
      exact (mem_descRows_succ rows (n + 1) s c).mpr
        (Or.inr ⟨c, hc, self_mem_descRows rows (n + 1) c⟩)
    · exact (mem_descRows_succ rows (n + 1) s c).mpr
        (Or.inr ⟨d, hd, ih d q c hqd hc⟩)

theorem mem_descRows_of_chain (rows : Store) (s : Structure) :
    ∀ (f : Nat) (t : String) (q : Structure), lookupStruct rows t = some q →
      s.id ∈ chainIds rows f t → q ∈ descRows rows f s := by
  intro f
  induction f with
  | zero => intro t q hq h; simp [chainIds] at h
  | succ n ih =>
    intro t q hq h
    cases hp : pstep rows t with
    | none => rw [chainIds_succ_none rows n t hp] at h; cases h
    | some p =>
      rw [chainIds_succ_some rows n t p hp] at h
      obtain ⟨r, hr, hpar⟩ := pstep_some rows t p hp
      have hrq : r = q := by
        rw [hq] at hr
        injection hr with h2
        exact h2.symm
      rw [hrq] at hpar
      have hqmem := List.mem_of_find?_eq_some hq
      rcases List.mem_cons.mp h with he | ht
      · refine (mem_descRows_succ rows n s q).mpr (Or.inr ⟨q, ?_, self_mem_descRows rows n q⟩)
        refine (mem_childRows rows s.id q).mpr ⟨hqmem, ?_⟩
        rw [he]
        exact hpar
      · have hlp : ∃ q2, lookupStruct rows p = some q2 := by
          cases hlp2 : lookupStruct rows p with
          | none =>
            rw [chainIds_of_lookup_none rows p hlp2 n] at ht
            cases ht
          | some q2 => exact ⟨q2, rfl⟩
        obtain ⟨q2, hq2⟩ := hlp
        have hq2id : q2.id = p := by simpa using List.find?_some hq2
        have hq2mem := ih p q2 hq2 ht
        refine descRows_child_ext rows n s q2 q hq2mem ?_
        exact (mem_childRows rows q2.id q).mpr ⟨hqmem, by rw [hq2id]; exact hpar⟩

theorem reaches_of_mem_descRows (rows : Store)
    (hnd : (rows.map (fun r => r.id)).Nodup) :
    ∀ (f : Nat) (s x : Structure), s ∈ rows → x ∈ descRows rows f s →
      x ∈ rows ∧ Reaches rows s.id x.id := by
  intro f
  induction f with
  | zero =>
    intro s x hs hx
    have hx2 : x = s := by simpa [descRows] using hx
    rw [hx2]
    exact ⟨hs, Reaches.refl _⟩
  | succ n ih =>
    intro s x hs hx
    rcases (mem_descRows_succ rows n s x).mp hx with he | ⟨c, hc, hxc⟩
    · rw [he]
      exact ⟨hs, Reaches.refl _⟩
    · have hcprop := (mem_childRows rows s.id c).mp hc
      have hrec := ih c x hcprop.1 hxc
      refine ⟨hrec.1, ?_⟩
      have hsc : Reaches rows s.id c.id :=
        Reaches.step (lookupStruct_of_mem rows hnd c hcprop.1) hcprop.2 (Reaches.refl _)
      exact reaches_trans rows hsc hrec.2

theorem mem_descRows_iff (rows : Store) (hwf : WellFormed rows) (s : Structure)
    (hs : lookupStruct rows s.id = some s) (x : Structure) :
    x ∈ descRows rows rows.length s ↔ x ∈ rows ∧ Reaches rows s.id x.id := by
  constructor
  · exact fun h =>
      reaches_of_mem_descRows rows hwf.1 rows.length s x (List.mem_of_find?_eq_some hs) h
  · rintro ⟨hx, hr⟩
    rcases mem_chainIds_of_reaches rows hwf s.id x.id hr with he | hm
    · have hxs : x = s := by
        have h1 := lookupStruct_of_mem rows hwf.1 x hx
        rw [← he, hs] at h1
        injection h1 with h2
        exact h2.symm
      rw [hxs]
      exact self_mem_descRows rows rows.length s
    · exact mem_descRows_of_chain rows s rows.length x.id x
        (lookupStruct_of_mem rows hwf.1 x hx) hm

theorem ancRowsFrom_succ_none (rows : Store) (f : Nat) (b : Structure)
    (h : b.parentId = none) : ancRowsFrom rows (f + 1) b = [b] := by
  rw [ancRowsFrom, h]

theorem ancRowsFrom_succ_dangling (rows : Store) (f : Nat) (b : Structure) (p : String)
    (hp : b.parentId = some p) (hl : lookupStruct rows p = none) :
    ancRowsFrom rows (f + 1) b = [b] := by
  rw [ancRowsFrom, hp]
  simp only [hl]

theorem ancRowsFrom_succ_some (rows : Store) (f : Nat) (b : Structure) (p : String)
    (q : Structure) (hp : b.parentId = some p) (hl : lookupStruct rows p = some q) :
    ancRowsFrom rows (f + 1) b = b :: ancRowsFrom rows f q := by
  rw [ancRowsFrom, hp]
  simp only [hl]

theorem mem_ancRowsFrom_iff (rows : Store)
    (hnd : (rows.map (fun r => r.id)).Nodup) :
    ∀ (f : Nat) (b : Structure), lookupStruct rows b.id = some b → ∀ x : Structure,
      (x ∈ ancRowsFrom rows f b ↔
        (lookupStruct rows x.id = some x ∧ x.id ∈ b.id :: chainIds rows f b.id)) := by
  intro f
  induction f with
  | zero =>
    intro b hb x
    constructor
    · intro hx
      have hx2 : x = b := by simpa [ancRowsFrom] using hx
      rw [hx2]
      exact ⟨hb, by simp [chainIds]⟩
    · rintro ⟨hx, hmem⟩
      simp [chainIds] at hmem
      have hlx : lookupStruct rows b.id = some x := by rw [← hmem]; exact hx
      have hbx := hb.symm.trans hlx
      injection hbx with h3
      rw [h3]
      simp [ancRowsFrom]
  | succ n ih =>
    intro b hb x
    cases hpar : b.parentId with
    | none =>
      have hps : pstep rows b.id = none := by unfold pstep; rw [hb]; exact hpar
      rw [ancRowsFrom_succ_none rows n b hpar, chainIds_succ_none rows n b.id hps]
      constructor
      · intro hx
        have hx2 : x = b := by simpa using hx
        rw [hx2]
        exact ⟨hb, by simp⟩
      · rintro ⟨hx, hmem⟩
        simp at hmem
        have hlx : lookupStruct rows b.id = some x := by rw [← hmem]; exact hx
        have hbx := hb.symm.trans hlx
        injection hbx with h3
        rw [h3]
        simp
    | some p =>
      have hps : pstep rows b.id = some p := by unfold pstep; rw [hb]; exact hpar
      cases hlp : lookupStruct rows p with
      | none =>
        rw [ancRowsFrom_succ_dangling rows n b p hpar hlp,
          chainIds_succ_some rows n b.id p hps, chainIds_of_lookup_none rows p hlp n]
        constructor
        · intro hx
          have hx2 : x = b := by simpa using hx
          rw [hx2]
          exact ⟨hb, by simp⟩
        · rintro ⟨hx, hmem⟩
          simp at hmem
          rcases hmem with h1 | h2
          · have hlx : lookupStruct rows b.id = some x := by rw [← h1]; exact hx
            have hbx := hb.symm.trans hlx
            injection hbx with h3
            rw [h3]
            simp
          · rw [h2, hlp] at hx
            cases hx
      | some q =>
        have hqid : q.id = p := by simpa using List.find?_some hlp
        have hqmem := List.mem_of_find?_eq_some hlp
        have hq : lookupStruct rows q.id = some q := lookupStruct_of_mem rows hnd q hqmem
        have ihq := ih q hq x
        rw [ancRowsFrom_succ_some rows n b p q hpar hlp,
          chainIds_succ_some rows n b.id p hps]
        constructor
        · intro hx
          rcases List.mem_cons.mp hx with he | ht
          · rw [he]
            exact ⟨hb, by simp⟩
          · obtain ⟨hxl, hxm⟩ := ihq.mp ht
            refine ⟨hxl, ?_⟩
            rw [hqid] at hxm
            exact List.mem_cons_of_mem _ hxm
        · rintro ⟨hxl, hxm⟩
          rcases List.mem_cons.mp hxm with h1 | h2
          · have hlx : lookupStruct rows b.id = some x := by rw [← h1]; exact hxl
            have hbx := hb.symm.trans hlx
            injection hbx with h3
            rw [h3]
            exact List.mem_cons_self _ _
          · apply List.mem_cons_of_mem
            apply ihq.mpr
            refine ⟨hxl, ?_⟩
            rw [hqid]
            exact h2

theorem findDescendants_computes (st : St) (id : String) (s : Structure)
    (hcache : st.cache = []) (hs : lookupStruct st.structures id = some s) :
    ∃ st2, StructuresService.findDescendants st id
      = Except.ok (descRows st.structures st.structures.length s, st2) := by
  unfold StructuresService.findDescendants StructuresService.findOne
  simp only [hcache, cacheGet_nil, hs]
  exact ⟨_, rfl⟩

theorem findAncestors_computes (st : St) (id : String) (s : Structure)
    (hcache : st.cache = []) (hs : lookupStruct st.structures id = some s) :
    ∃ st2, StructuresService.findAncestors st id
      = Except.ok (ancRowsFrom st.structures st.structures.length s, st2) := by
  unfold StructuresService.findAncestors StructuresService.findOne
  simp only [hcache, cacheGet_nil, hs]
  exact ⟨_, rfl⟩

theorem descKey_ne_allStructures (t : String) :
    ¬ ("structure_descendants_" ++ t = "all_structures") := by
  intro h
  have h2 : ("structure_descendants_" ++ t).data = "all_structures".data := by rw [h]
  rw [String.data_append] at h2
  have h3 : "structure_descendants_".data = 's' :: "tructure_descendants_".data := rfl
  have h4 : "all_structures".data = 'a' :: "ll_structures".data := rfl
  rw [h3, h4, List.cons_append] at h2
  exact absurd (List.head_eq_of_cons_eq h2) (by decide)

theorem findDescendants_cache_hit (st : St) (tid : String) (l : List Structure)
    (h : cacheGet st.cache ("structure_descendants_" ++ tid) = some (CacheVal.structs l)) :
    StructuresService.findDescendants st tid = Except.ok (l, st) := by
  unfold StructuresService.findDescendants
  rw [h]

theorem findDescendants_after_clear (st : St) (tid : String) (l : List Structure)
    (h : cacheGet st.cache ("structure_descendants_" ++ tid) = some (CacheVal.structs l)) :
    (StructuresService.findDescendants (StructuresService.clearStructureCache st) tid).map
        Prod.fst = Except.ok l := by
  have hget : cacheGet (StructuresService.clearStructureCache st).cache
      ("structure_descendants_" ++ tid) = some (CacheVal.structs l) := by
    show cacheGet (cacheDel st.cache "all_structures") _ = _
    rw [cacheGet_del_ne]
    · exact h
    · exact fun hh => descKey_ne_allStructures tid hh.symm
  rw [findDescendants_cache_hit _ _ _ hget]
  rfl

/-- Claim C1, counterexample: the user u1 exists and is a valid user id,
but its structureId is null and canAccessUser(u1, u1) returns false, so
self-access does not hold for every valid user id regardless of
structureId. -/
theorem canAccessUser_self_null_counterexample :
    lookupUser stNullUser.users "u1" = some userNull ∧
      (UsersService.canAccessUser stNullUser "u1" "u1").map Prod.fst = Except.ok false :=
  ⟨rfl, rfl⟩

/-- Claim C1 (amended): canAccessUser(u, u) returns true when the home
structureId of u is non-null and resolves to an existing structure; the
check runs through the cache-backed accessible-structures computation
(no self-access short-circuit exists), and when the structureId is null
it returns false. -/
theorem canAccessUser_self (st : St) (uid : String) (u : User) (s : Structure)
    (hcache : st.cache = [])
    (hu : lookupUser st.users uid = some u)
    (hsid : u.structureId = some s.id)
    (hs : lookupStruct st.structures s.id = some s) :
    (UsersService.canAccessUser st uid uid).map Prod.fst = Except.ok true := by
  unfold UsersService.canAccessUser UsersService.findOne
  simp only [hu, hsid]
  unfold StructuresService.findUserAccessibleStructures StructuresService.findOne
  simp only [hcache, cacheGet_nil, hs, descRows_any_self]
  rfl

/-- Witness for the amended C1: the user w homed at the root structure
can access itself. -/
theorem canAccessUser_self_witness :
    (UsersService.canAccessUser stW "w" "w").map Prod.fst = Except.ok true :=
  canAccessUser_self stW "w" userW rowR rfl rfl rfl rfl

/-- Claim C2, counterexample: V is homed at S in the tree R before C
before S and holds an explicit Permission grant on C, yet the computed
accessible set is exactly the S subtree: C was not added by the grant,
because findUserAccessibleStructures never consults the permissions
table. -/
theorem grant_outside_subtree_counterexample :
    permVC ∈ stGrant.permissions ∧ permVC.userId = "V" ∧ permVC.structureId = "C" ∧
      (StructuresService.findUserAccessibleStructures stGrant "V" "S").map
          (fun p => p.1.map (fun s => s.id)) = Except.ok ["S"] ∧
      ¬ ("C" ∈ (["S"] : List String)) :=
  ⟨by decide, rfl, rfl, rfl, by decide⟩

/-- Claim C2 (amended): for a user with a non-null home structureId
that resolves (empty cache), findUserAccessibleStructures returns
exactly the tree-repository descendants of the home structure — the
home structure itself together with its transitive descendants — and
its result is invariant under arbitrary changes to the Permission
table: grants add nothing to the accessible set. -/
theorem findUserAccessibleStructures_ignores_permissions (st : St) (uid sid : String)
    (s : Structure) (hcache : st.cache = [])
    (hs : lookupStruct st.structures sid = some s) :
    (StructuresService.findUserAccessibleStructures st uid sid).map Prod.fst
        = Except.ok (descRows st.structures st.structures.length s) ∧
    ∀ perms : List Permission,
      (StructuresService.findUserAccessibleStructures
          { st with permissions := perms } uid sid).map Prod.fst
        = (StructuresService.findUserAccessibleStructures st uid sid).map Prod.fst := by
  constructor
  · unfold StructuresService.findUserAccessibleStructures StructuresService.findOne
    simp only [hcache, cacheGet_nil, hs]
    rfl
  · intro perms
    unfold StructuresService.findUserAccessibleStructures StructuresService.findOne
    simp only [hcache, cacheGet_nil, hs]
    rfl

/-- Witness for the amended C2 at the grant state: the accessible set of
V is the descendants of S, and dropping every permission leaves it
unchanged. -/
theorem findUserAccessibleStructures_ignores_permissions_witness :
    (StructuresService.findUserAccessibleStructures stGrant "V" "S").map Prod.fst
        = Except.ok (descRows stGrant.structures stGrant.structures.length rowS) ∧
    (StructuresService.findUserAccessibleStructures
        { stGrant with permissions := [] } "V" "S").map Prod.fst
      = (StructuresService.findUserAccessibleStructures stGrant "V" "S").map Prod.fst :=
  ⟨(findUserAccessibleStructures_ignores_permissions stGrant "V" "S" rowS rfl rfl).1,
    (findUserAccessibleStructures_ignores_permissions stGrant "V" "S" rowS rfl rfl).2 []⟩

/-- Claim C5, counterexample: the city has the suburb as child, yet
remove(C) succeeds with no HasChildren error and the store mutates: the
city row is deleted (and the suburb keeps a dangling parent
reference). -/
theorem remove_with_children_counterexample :
    childRows stCS.structures "C" = [rowS] ∧
      StructuresService.remove stCS "C" = Except.ok ((), stCSAfter) ∧
      ¬ (rowC ∈ stCSAfter.structures) :=
  ⟨rfl, rfl, by decide⟩

/-- Claim C5 (amended): remove(id) deletes the resolved structure row
whenever it exists (empty cache), with no check for children: the row
is unconditionally removed from the store, children or not. -/
theorem remove_ignores_children (st : St) (id : String) (s : Structure)
    (hcache : st.cache = []) (hs : lookupStruct st.structures id = some s) :
    (StructuresService.remove st id).map (fun p => p.2.structures)
      = Except.ok (st.structures.filter (fun r => ¬ (r.id = id))) := by
  have hid := (lookupStruct_id st.structures id s hs).1
  unfold StructuresService.remove StructuresService.findOne
  simp only [hcache, cacheGet_nil, hs]
  rw [hid]
  rfl

/-- Witness for the amended C5 at the city-suburb state. -/
theorem remove_ignores_children_witness :
    (StructuresService.remove stCS "C").map (fun p => p.2.structures)
      = Except.ok (stCS.structures.filter (fun r => ¬ (r.id = "C"))) :=
  remove_ignores_children stCS "C" rowC rfl rfl

/-- Claim C7, counterexample: for the existing user u1 with null home
structureId, findAll throws ForbiddenException instead of returning an
empty result. -/
theorem findAll_null_structure_counterexample :
    UsersService.findAll stNullUser "u1"
      = Except.error (Err.forbidden "User has no assigned structure") := rfl

/-- Claim C7 (amended): for every user whose home structureId is null,
findAll throws ForbiddenException ("User has no assigned structure")
rather than returning an empty result: such a user gets an error, not
an empty accessible set. -/
theorem findAll_forbidden_on_null_structure (st : St) (uid : String) (u : User)
    (hu : lookupUser st.users uid = some u) (hsid : u.structureId = none) :
    UsersService.findAll st uid
      = Except.error (Err.forbidden "User has no assigned structure") := by
  unfold UsersService.findAll UsersService.findOne
  simp only [hu, hsid]

/-- Witness for the amended C7, on a state with a structure row present. -/
theorem findAll_forbidden_witness :
    UsersService.findAll (⟨[rowR], [userNull], [], []⟩ : St) "u1"
      = Except.error (Err.forbidden "User has no assigned structure") :=
  findAll_forbidden_on_null_structure ⟨[rowR], [userNull], [], []⟩ "u1" userNull rfl rfl

theorem accKey_inj_right (u s s1 : String)
    (h : StructuresService.accKey u s = StructuresService.accKey u s1) : s = s1 := by
  unfold StructuresService.accKey at h
  have h2 := congrArg String.data h
  simp only [String.data_append] at h2
  have h3 := List.append_cancel_left h2
  exact String.ext h3

theorem structureKey_ne_accKey (a u s : String) :
    ¬ ("structure_" ++ a = StructuresService.accKey u s) := by
  intro h
  unfold StructuresService.accKey at h
  have h2 := congrArg String.data h
  simp only [String.data_append] at h2
  simp only [List.cons_append, List.append_assoc] at h2
  injection h2 with h5
  exact absurd h5 (by decide)

theorem canAccessUser_target_missing (st : St) (cu : User) (cid tid : String)
    (hc : lookupUser st.users cid = some cu) (ht : lookupUser st.users tid = none) :
    UsersService.canAccessUser st cid tid
      = Except.error (Err.notFound ("User with ID " ++ tid ++ " not found")) := by
  unfold UsersService.canAccessUser UsersService.findOne
  simp only [hc, ht]

theorem canAccessUser_null_requester (st : St) (cu tu : User) (cid tid : String)
    (hc : lookupUser st.users cid = some cu) (ht : lookupUser st.users tid = some tu)
    (hcs : cu.structureId = none) :
    UsersService.canAccessUser st cid tid = Except.ok (false, st) := by
  unfold UsersService.canAccessUser UsersService.findOne
  simp only [hc, ht, hcs]

theorem canAccessUser_null_target (st : St) (cu tu : User) (cid tid csid : String)
    (hc : lookupUser st.users cid = some cu) (ht : lookupUser st.users tid = some tu)
    (hcs : cu.structureId = some csid) (hts : tu.structureId = none) :
    UsersService.canAccessUser st cid tid = Except.ok (false, st) := by
  unfold UsersService.canAccessUser UsersService.findOne
  simp only [hc, ht, hcs, hts]

theorem canAccessUser_resolves_some (st : St) (cu tu : User) (cid tid csid tsid : String)
    (hc : lookupUser st.users cid = some cu) (ht : lookupUser st.users tid = some tu)
    (hcs : cu.structureId = some csid) (hts : tu.structureId = some tsid) :
    UsersService.canAccessUser st cid tid
      = (match StructuresService.findUserAccessibleStructures st cid csid with
          | Except.error e => Except.error e
          | Except.ok (accessible, st3) =>
            Except.ok (accessible.any (fun s => s.id = tsid), st3)) := by
  unfold UsersService.canAccessUser UsersService.findOne
  simp only [hc, ht, hcs, hts]

theorem findUserAccessibleStructures_value_ignores_userId (st : St) (u1 u2 sid : String)
    (hcache : st.cache = []) :
    (StructuresService.findUserAccessibleStructures st u1 sid).map Prod.fst
      = (StructuresService.findUserAccessibleStructures st u2 sid).map Prod.fst := by
  unfold StructuresService.findUserAccessibleStructures StructuresService.findOne
  simp only [hcache, cacheGet_nil]
  cases hls : lookupStruct st.structures sid with
  | none => rfl
  | some s => rfl

/-- Claim C6, counterexample: findDescendants on the single root node
returns a list containing that node itself, so the result does not
exclude the node with the queried id. -/
theorem findDescendants_includes_self_counterexample :
    (StructuresService.findDescendants stR0 "R").map Prod.fst = Except.ok [rowR] ∧
      rowR ∈ ([rowR] : List Structure) ∧ rowR.id = "R" :=
  ⟨rfl, by decide, rfl⟩

/-- Claim C6 (amended): on a well-formed store with an empty cache,
findDescendants(id) returns exactly the rows whose parent chain reaches
the queried node — the node itself together with every node reachable
by following child links transitively (TypeORM closure-table
semantics include the queried entity in its own descendants). -/
theorem findDescendants_mem_iff (st : St) (id : String) (s : Structure)
    (l : List Structure) (st1 : St)
    (hwf : WellFormed st.structures) (hcache : st.cache = [])
    (hs : lookupStruct st.structures id = some s)
    (hrun : StructuresService.findDescendants st id = Except.ok (l, st1)) :
    s ∈ l ∧ ∀ x, (x ∈ l ↔ (x ∈ st.structures ∧ Reaches st.structures id x.id)) := by
  obtain ⟨st2, h2⟩ := findDescendants_computes st id s hcache hs
  rw [hrun] at h2
  injection h2 with h3
  rw [Prod.mk.injEq] at h3
  have hid := (lookupStruct_id st.structures id s hs).1
  rw [h3.1]
  constructor
  · exact self_mem_descRows _ _ _
  · intro x
    rw [← hid]
    exact mem_descRows_iff st.structures hwf s (by rw [hid]; exact hs) x

/-- Witness for the amended C6 on the three-node tree: the root is a
member of its own descendant list, and membership of the suburb row
yields the reachability fact. -/
theorem findDescendants_mem_iff_witness :
    rowR ∈ ([rowR, rowC, rowS] : List Structure) ∧
      rowS ∈ stW.structures ∧ Reaches stW.structures "R" rowS.id :=
  ⟨(findDescendants_mem_iff stW "R" rowR [rowR, rowC, rowS] stWDescR (by decide) rfl rfl
      rfl).1,
    ((findDescendants_mem_iff stW "R" rowR [rowR, rowC, rowS] stWDescR (by decide) rfl rfl
        rfl).2 rowS).mp (by decide)⟩

/-- Claim C8: descendant and ancestor queries are dual.  For existing
structures A and B on a well-formed store with an empty cache, B is a
member of findDescendants(A) exactly when A is a member of
findAncestors(B) (both lists include the queried entity itself, so the
equivalence also holds for A = B). -/
theorem descendants_ancestors_duality (st : St) (A B : Structure)
    (hwf : WellFormed st.structures) (hcache : st.cache = [])
    (hA : lookupStruct st.structures A.id = some A)
    (hB : lookupStruct st.structures B.id = some B)
    (dl al : List Structure) (st1 st2 : St)
    (hd : StructuresService.findDescendants st A.id = Except.ok (dl, st1))
    (ha : StructuresService.findAncestors st B.id = Except.ok (al, st2)) :
    B ∈ dl ↔ A ∈ al := by
  obtain ⟨std, hd2⟩ := findDescendants_computes st A.id A hcache hA
  rw [hd] at hd2
  injection hd2 with h3
  rw [Prod.mk.injEq] at h3
  obtain ⟨sta, ha2⟩ := findAncestors_computes st B.id B hcache hB
  rw [ha] at ha2
  injection ha2 with h4
  rw [Prod.mk.injEq] at h4
  rw [h3.1, h4.1]
  rw [mem_descRows_iff st.structures hwf A hA B]
  rw [mem_ancRowsFrom_iff st.structures hwf.1 st.structures.length B hB A]
  constructor
  · rintro ⟨hBmem, hr⟩
    refine ⟨hA, ?_⟩
    rcases mem_chainIds_of_reaches st.structures hwf A.id B.id hr with he | hm
    · rw [he]
      exact List.mem_cons_self _ _
    · exact List.mem_cons_of_mem _ hm
  · rintro ⟨_, hm⟩
    refine ⟨List.mem_of_find?_eq_some hB, ?_⟩
    rcases List.mem_cons.mp hm with he | ht
    · rw [he]
      exact Reaches.refl _
    · exact reaches_of_mem_chainIds st.structures st.structures.length B.id A.id ht

/-- Witness for C8 on the three-node tree: the suburb is among the
descendants of the root, so the root is among the ancestors of the
suburb. -/
theorem descendants_ancestors_duality_witness :
    rowR ∈ ([rowS, rowC, rowR] : List Structure) :=
  (descendants_ancestors_duality stW rowR rowS (by decide) rfl rfl rfl
      [rowR, rowC, rowS] [rowS, rowC, rowR] stWDescR stWAncS rfl rfl).mp (by decide)

/-- Claim C3, counterexample: findDescendants(R) populates the cache on
the one-node store; create(C under R) only deletes the all_structures
entry; the next findDescendants(R) is served the pre-mutation value
[R], while a fresh traversal of the mutated store would also return C. -/
theorem stale_descendants_counterexample :
    StructuresService.findDescendants stR0 "R" = Except.ok ([rowR], stR1) ∧
      StructuresService.create stR1 rowC = Except.ok (rowC, stRC) ∧
      StructuresService.findDescendants stRC "R" = Except.ok ([rowR], stRC) ∧
      rowC ∈ descRows stRC.structures stRC.structures.length rowR ∧
      ¬ (rowC ∈ [rowR]) :=
  ⟨rfl, rfl, rfl, by decide, by decide⟩

/-- Claim C3 (amended): structure mutations delete only the
all_structures cache entry.  A cached per-structure descendants entry
survives create, update and remove (when the structure key the
mutation's findOne may populate is a different key), and the next
findDescendants call is served the pre-mutation cached value rather
than recomputing. -/
theorem mutations_preserve_descendant_cache (st : St) (id tid : String)
    (dto : StructuresService.StructureDto) (s1 : Structure) (l : List Structure)
    (hl : cacheGet st.cache ("structure_descendants_" ++ tid) = some (CacheVal.structs l))
    (hkey : ¬ ("structure_" ++ id = "structure_descendants_" ++ tid)) :
    (∀ st1 r, StructuresService.create st s1 = Except.ok (r, st1) →
        (StructuresService.findDescendants st1 tid).map Prod.fst = Except.ok l) ∧
    (∀ st1 r, StructuresService.update st id dto = Except.ok (r, st1) →
        (StructuresService.findDescendants st1 tid).map Prod.fst = Except.ok l) ∧
    (∀ st1, StructuresService.remove st id = Except.ok ((), st1) →
        (StructuresService.findDescendants st1 tid).map Prod.fst = Except.ok l) := by
  refine ⟨?_, ?_, ?_⟩
  · intro st1 r heq
    unfold StructuresService.create at heq
    cases heq
    exact findDescendants_after_clear _ tid l hl
  · intro st1 r heq
    unfold StructuresService.update StructuresService.findOne at heq
    cases hcg : cacheGet st.cache ("structure_" ++ id) with
    | none =>
      rw [hcg] at heq
      cases hls : lookupStruct st.structures id with
      | none => rw [hls] at heq; cases heq
      | some s =>
        rw [hls] at heq
        cases heq
        refine findDescendants_after_clear _ tid l ?_
        show cacheGet (cacheSet st.cache ("structure_" ++ id) (CacheVal.struct s)) _ = _
        rw [cacheGet_set_ne _ _ _ _ hkey]
        exact hl
    | some v =>
      cases v with
      | struct s =>
        rw [hcg] at heq
        cases heq
        exact findDescendants_after_clear _ tid l hl
      | structs l2 =>
        rw [hcg] at heq
        cases hls : lookupStruct st.structures id with
        | none => rw [hls] at heq; cases heq
        | some s =>
          rw [hls] at heq
          cases heq
          refine findDescendants_after_clear _ tid l ?_
          show cacheGet (cacheSet st.cache ("structure_" ++ id) (CacheVal.struct s)) _ = _
          rw [cacheGet_set_ne _ _ _ _ hkey]
          exact hl
  · intro st1 heq
    unfold StructuresService.remove StructuresService.findOne at heq
    cases hcg : cacheGet st.cache ("structure_" ++ id) with
    | none =>
      rw [hcg] at heq
      cases hls : lookupStruct st.structures id with
      | none => rw [hls] at heq; cases heq
      | some s =>
        rw [hls] at heq
        cases heq
        refine findDescendants_after_clear _ tid l ?_
        show cacheGet (cacheSet st.cache ("structure_" ++ id) (CacheVal.struct s)) _ = _
        rw [cacheGet_set_ne _ _ _ _ hkey]
        exact hl
    | some v =>
      cases v with
      | struct s =>
        rw [hcg] at heq
        cases heq
        exact findDescendants_after_clear _ tid l hl
      | structs l2 =>
        rw [hcg] at heq
        cases hls : lookupStruct st.structures id with
        | none => rw [hls] at heq; cases heq
        | some s =>
          rw [hls] at heq
          cases heq
          refine findDescendants_after_clear _ tid l ?_
          show cacheGet (cacheSet st.cache ("structure_" ++ id) (CacheVal.struct s)) _ = _
          rw [cacheGet_set_ne _ _ _ _ hkey]
          exact hl

/-- Witness for the amended C3 at the cached one-node state `stR1`: after
create(C), findDescendants(R) is served the stale cached value. -/
theorem mutations_preserve_descendant_cache_witness :
    (StructuresService.findDescendants stRC "R").map Prod.fst = Except.ok [rowR] :=
  (mutations_preserve_descendant_cache stR1 "R" "R"
      (⟨some "Renamed", none, none⟩ : StructuresService.StructureDto) rowC [rowR] rfl
      (by decide)).1 stRC rowC rfl

/-- Claim C4, counterexample: B is a strict descendant of A, yet
update(A, parentId := B) is accepted with no InvalidOperation or
CycleDetected error, and afterwards the ancestor chain of A contains A
itself: the parent relation has a cycle and is no longer well formed. -/
theorem update_cycle_counterexample :
    "A" ∈ chainIds stAB.structures stAB.structures.length "B" ∧
      StructuresService.update stAB "A" dtoMoveToB = Except.ok (rowA2, stABCycle) ∧
      "A" ∈ chainIds stABCycle.structures stABCycle.structures.length "A" ∧
      ¬ WellFormed stABCycle.structures :=
  ⟨by decide, rfl, by decide, by decide⟩

/-- Claim C4 (amended): update performs no parentId validation at all.
For every state, id and DTO — including a DTO whose parentId is the
node itself or one of its descendants — update either fails with
NotFound (the id did not resolve) or succeeds; no InvalidOperation or
CycleDetected rejection exists, and accepted moves can create a cyclic
parent relation (see the counterexample). -/
theorem update_accepts_any_parent (st : St) (id : String)
    (dto : StructuresService.StructureDto) :
    (∃ m, StructuresService.update st id dto = Except.error (Err.notFound m)) ∨
    ∃ s1 st1, StructuresService.update st id dto = Except.ok (s1, st1) := by
  unfold StructuresService.update StructuresService.findOne
  cases hcg : cacheGet st.cache ("structure_" ++ id) with
  | none =>
    cases hls : lookupStruct st.structures id with
    | none => exact Or.inl ⟨_, rfl⟩
    | some s => exact Or.inr ⟨_, _, rfl⟩
  | some v =>
    cases v with
    | struct s => exact Or.inr ⟨_, _, rfl⟩
    | structs l =>
      cases hls : lookupStruct st.structures id with
      | none => exact Or.inl ⟨_, rfl⟩
      | some s => exact Or.inr ⟨_, _, rfl⟩

/-- Claim C9: the accessible-structures cache key contains both the
user id and the current home structure id.  If every relevant entry in
the prior cache was stored under the old home structure id s (and no
entry exists for the new id s1), then a lookup for the same user under
the new home structure id misses the old entry — the keys differ — and
the service recomputes the accessible set from the store, with no
explicit invalidation of the old entry required. -/
theorem accessible_cache_key_isolates_home (st : St) (c0 : Cache) (u s s1 : String)
    (v : CacheVal) (row : Structure)
    (hne : ¬ (s = s1))
    (hc : st.cache = cacheSet c0 (StructuresService.accKey u s) v)
    (hmiss : cacheGet c0 (StructuresService.accKey u s1) = none)
    (hmiss2 : cacheGet c0 ("structure_" ++ s1) = none)
    (hrow : lookupStruct st.structures s1 = some row) :
    (StructuresService.findUserAccessibleStructures st u s1).map Prod.fst
      = Except.ok (descRows st.structures st.structures.length row) := by
  have hk1 : ¬ (StructuresService.accKey u s = StructuresService.accKey u s1) := by
    intro h
    exact hne (accKey_inj_right u s s1 h)
  have hg1 : cacheGet st.cache (StructuresService.accKey u s1) = none := by
    rw [hc, cacheGet_set_ne c0 (StructuresService.accKey u s1)
      (StructuresService.accKey u s) v hk1]
    exact hmiss
  have hk2 : ¬ (StructuresService.accKey u s = "structure_" ++ s1) := by
    intro h
    exact structureKey_ne_accKey s1 u s h.symm
  have hg2 : cacheGet st.cache ("structure_" ++ s1) = none := by
    rw [hc, cacheGet_set_ne c0 ("structure_" ++ s1) (StructuresService.accKey u s) v hk2]
    exact hmiss2
  unfold StructuresService.findUserAccessibleStructures StructuresService.findOne
  simp only [hg1, hg2, hrow]
  rfl

/-- Witness for C9: V was cached while homed at R; after the home
change to S the lookup recomputes the S subtree from the store. -/
theorem accessible_cache_key_isolates_home_witness :
    (StructuresService.findUserAccessibleStructures stHomeChanged "V" "S").map Prod.fst
      = Except.ok
          (descRows stHomeChanged.structures stHomeChanged.structures.length rowS) :=
  accessible_cache_key_isolates_home stHomeChanged [] "V" "R" "S"
    (CacheVal.structs [rowR, rowC, rowS]) rowS (by decide) rfl rfl rfl rfl

/-- Claim C10: the accessible-set value depends only on the home
structure id and the store, never on the requesting user id; with an
empty cache two users homed at the same structure obtain equal
accessible sets and identical canAccessUser verdicts toward any target
user. -/
theorem canAccessUser_ignores_requester_identity (st : St) (u1 u2 t : String)
    (r1 r2 : User) (hcache : st.cache = [])
    (h1 : lookupUser st.users u1 = some r1) (h2 : lookupUser st.users u2 = some r2)
    (hsid : r1.structureId = r2.structureId) :
    (∀ sid, (StructuresService.findUserAccessibleStructures st u1 sid).map Prod.fst
        = (StructuresService.findUserAccessibleStructures st u2 sid).map Prod.fst) ∧
    (UsersService.canAccessUser st u1 t).map Prod.fst
      = (UsersService.canAccessUser st u2 t).map Prod.fst := by
  refine ⟨fun sid => findUserAccessibleStructures_value_ignores_userId st u1 u2 sid hcache, ?_⟩
  cases hlt : lookupUser st.users t with
  | none =>
    rw [canAccessUser_target_missing st r1 u1 t h1 hlt,
      canAccessUser_target_missing st r2 u2 t h2 hlt]
  | some tu =>
    cases hcs : r1.structureId with
    | none =>
      have hcs2 : r2.structureId = none := by rw [← hsid]; exact hcs
      rw [canAccessUser_null_requester st r1 tu u1 t h1 hlt hcs,
        canAccessUser_null_requester st r2 tu u2 t h2 hlt hcs2]
    | some csid =>
      have hcs2 : r2.structureId = some csid := by rw [← hsid]; exact hcs
      cases hts : tu.structureId with
      | none =>
        rw [canAccessUser_null_target st r1 tu u1 t csid h1 hlt hcs hts,
          canAccessUser_null_target st r2 tu u2 t csid h2 hlt hcs2 hts]
      | some tsid =>
        rw [canAccessUser_resolves_some st r1 tu u1 t csid tsid h1 hlt hcs hts,
          canAccessUser_resolves_some st r2 tu u2 t csid tsid h2 hlt hcs2 hts]
        have hacc := findUserAccessibleStructures_value_ignores_userId st u1 u2 csid hcache
        cases ha1 : StructuresService.findUserAccessibleStructures st u1 csid with
        | error e1 =>
          cases ha2 : StructuresService.findUserAccessibleStructures st u2 csid with
          | error e2 =>
            rw [ha1, ha2] at hacc
            have he2 : (Except.error e1 : Except Err (List Structure)) = Except.error e2 := hacc
            injection he2 with he
            rw [he]
          | ok p2 =>
            rw [ha1, ha2] at hacc
            have he2 : (Except.error e1 : Except Err (List Structure)) = Except.ok p2.1 := hacc
            cases he2
        | ok p1 =>
          cases ha2 : StructuresService.findUserAccessibleStructures st u2 csid with
          | error e2 =>
            rw [ha1, ha2] at hacc
            have he2 : (Except.ok p1.1 : Except Err (List Structure)) = Except.error e2 := hacc
            cases he2
          | ok p2 =>
            obtain ⟨l1, st3⟩ := p1
            obtain ⟨l2, st4⟩ := p2
            rw [ha1, ha2] at hacc
            have he2 : (Except.ok l1 : Except Err (List Structure)) = Except.ok l2 := hacc
            injection he2 with he
            rw [he]
            rfl

/-- Witness for C10: the users w and w2, both homed at the root, obtain
the same accessible set and the same verdict toward V. -/
theorem canAccessUser_ignores_requester_identity_witness :
    (StructuresService.findUserAccessibleStructures stTwo "w" "S").map Prod.fst
        = (StructuresService.findUserAccessibleStructures stTwo "w2" "S").map Prod.fst ∧
    (UsersService.canAccessUser stTwo "w" "V").map Prod.fst
      = (UsersService.canAccessUser stTwo "w2" "V").map Prod.fst :=
  ⟨(canAccessUser_ignores_requester_identity stTwo "w" "w2" "V" userW userW2
      rfl rfl rfl rfl).1 "S",
    (canAccessUser_ignores_requester_identity stTwo "w" "w2" "V" userW userW2
      rfl rfl rfl rfl).2⟩

end Ekko
